import Mathlib

/-!
Verification of the client-management backend (Express + PostgreSQL + zod).

The development shallowly embeds the request handlers of
`src/backend/server.js` and the zod schemas of the backend schema module
(`createClientInputSchema`, `searchClientQuerySchema`) as executable Lean
functions over an explicit store (a list of client rows).  External
collaborators are embedded at their interface boundary:

* the CSV parser (`csv-parse` with `columns: true, trim: true`) delivers a
  list of string-keyed records, so the import pipeline is modelled from the
  parsed-records boundary onward, with the parse outcome
  (`Except String (List Rec)`) as input;
* `uuidv4()` and `new Date().toISOString()` are modelled as an injected
  identifier supply and timestamp string;
* the success of each `pool.query` INSERT during import is modelled by an
  injected per-row oracle (`ins : Nat → Bool`), since a store failure is
  caught row-locally by the handler;
* PostgreSQL string comparison (`ORDER BY` over `TEXT`) is modelled as
  code-point (C-collation) lexicographic comparison, and `ILIKE`
  with a metacharacter-free pattern as case-insensitive (ASCII) substring
  containment;
* JSON / CSV serialization of result rows is outside the model: handlers
  return the rows themselves.
-/

/-! ## String primitives

Lean core string comparison and case mapping are iterator-based and do not
reduce in the kernel, so the model works on the underlying character lists.
-/

/-- Code-point comparison of characters. -/
def charLeNat (a b : Char) : Bool := a.toNat ≤ b.toNat

/-- Lexicographic (code-point) order on character lists: the order PostgreSQL
uses for `TEXT` under the C collation.  It is case-sensitive. -/
def lexLe : List Char → List Char → Bool
  | [], _ => true
  | _ :: _, [] => false
  | a :: as, b :: bs =>
    if a.toNat < b.toNat then true
    else if b.toNat < a.toNat then false
    else lexLe as bs

/-- Case-sensitive lexicographic order on strings (code-point order). -/
def strLe (a b : String) : Bool := lexLe a.data b.data

/-- ASCII uppercase mapping of one character, the fragment of the JavaScript
String.prototype.toUpperCase that the handlers exercise. -/
def charUp (c : Char) : Char :=
  if 'a' ≤ c && c ≤ 'z' then Char.ofNat (c.toNat - 32) else c

/-- ASCII uppercase of a string (JavaScript toUpperCase on ASCII input). -/
def asciiToUpper (s : String) : String := String.mk (s.data.map charUp)

/-- ASCII lowercase mapping of one character. -/
def charDown (c : Char) : Char :=
  if 'A' ≤ c && c ≤ 'Z' then Char.ofNat (c.toNat + 32) else c

/-- Whether the first list is an initial segment of the second. -/
def listStartsWith : List Char → List Char → Bool
  | [], _ => true
  | _ :: _, [] => false
  | a :: as, b :: bs => a == b && listStartsWith as bs

/-- Whether `pat` occurs as a contiguous segment of `hay`. -/
def listContainsSeg (pat : List Char) : List Char → Bool
  | [] => listStartsWith pat []
  | c :: rest => listStartsWith pat (c :: rest) || listContainsSeg pat rest

/-- SQL `ILIKE` over `full_name` with the pattern wrapped in percent signs,
for a pattern without LIKE metacharacters: case-insensitive substring
containment (ASCII case folding). -/
def ilikeContains (hay pat : String) : Bool :=
  listContainsSeg (pat.data.map charDown) (hay.data.map charDown)

/-- Split a character list on a separator character. -/
def splitOnChar (sep : Char) : List Char → List (List Char)
  | [] => [[]]
  | c :: cs =>
    match splitOnChar sep cs with
    | [] => [[]]
    | g :: gs => if c == sep then [] :: g :: gs else (c :: g) :: gs

/-! ## zod email shape

`z.string().email()` (zod v3) matches a case-insensitive anchored pattern:
no leading dot and no two consecutive dots anywhere; a local part over
letters, digits, underscore, apostrophe, plus, hyphen and dot whose final
character is neither dot nor apostrophe; an at sign; one or more domain
labels of letters and digits (hyphens allowed after the first character)
each followed by a dot; and a trailing label of two or more letters.  The
functions below implement that pattern directly. -/

/-- Characters admitted anywhere in the local part of an email
(the class before the final local character), `/i` flag included. -/
def emailLocalChar (c : Char) : Bool :=
  c.isAlpha || c.isDigit || c == '_' || c == Char.ofNat 39 || c == '+' ||
    c == '-' || c == '.'

/-- Characters admitted as the last character of the local part. -/
def emailLocalLastChar (c : Char) : Bool :=
  c.isAlpha || c.isDigit || c == '_' || c == '+' || c == '-'

/-- The negative lookahead forbidding two consecutive dots. -/
def noDoubleDot : List Char → Bool
  | [] => true
  | [_] => true
  | a :: b :: rest => !(a == '.' && b == '.') && noDoubleDot (b :: rest)

/-- The local part: every character in the local class, the final one in
the restricted class (so it is nonempty and does not end in a dot). -/
def emailLocalOk : List Char → Bool
  | [] => false
  | [c] => emailLocalLastChar c
  | c :: rest => emailLocalChar c && emailLocalOk rest

/-- One non-final domain label: a letter or digit, then letters, digits or hyphens. -/
def domainLabelOk : List Char → Bool
  | [] => false
  | c :: rest =>
    (c.isAlpha || c.isDigit) && rest.all (fun x => x.isAlpha || x.isDigit || x == '-')

/-- The final domain label: two or more letters. -/
def tldOk (l : List Char) : Bool := decide (2 ≤ l.length) && l.all Char.isAlpha

/-- The domain: one or more labels, a dot-separated trailing alphabetic label. -/
def emailDomainOk (d : List Char) : Bool :=
  match splitOnChar '.' d with
  | [] => false
  | [_] => false
  | ls =>
    ls.dropLast.all domainLabelOk &&
      (match ls.getLast? with
       | some t => tldOk t
       | none => false)

/-- The zod v3 email regular expression. -/
def zodEmailValid (s : String) : Bool :=
  let cs := s.data
  (match cs with
   | [] => false
   | c :: _ => !(c == '.')) &&
  noDoubleDot cs &&
  (match splitOnChar '@' cs with
   | [l, d] => emailLocalOk l && emailDomainOk d
   | _ => false)

/-! ## JavaScript date coercion

`z.coerce.date()` evaluates `new Date(input)` and rejects invalid dates.  The
model recognizes ISO-format strings (`YYYY-MM-DD` optionally followed by a
time part); every string not of this shape, the empty string included, is
invalid.  This is a fragment of the JavaScript date grammar, faithful on the
inputs this development evaluates. -/
def jsDateValid (s : String) : Bool :=
  match s.data with
  | y1 :: y2 :: y3 :: y4 :: s1 :: m1 :: m2 :: s2 :: d1 :: d2 :: rest =>
    y1.isDigit && y2.isDigit && y3.isDigit && y4.isDigit && s1 == '-' &&
      m1.isDigit && m2.isDigit && s2 == '-' && d1.isDigit && d2.isDigit &&
      (match rest with
       | [] => true
       | c :: _ => c == 'T' || c == ' ')
  | _ => false

/-! ## JavaScript URL parsing

`z.string().url()` (zod v3) runs `new URL(input)` and rejects the value when
the constructor throws.  The model recognizes absolute URLs of the shape
scheme, colon, two slashes, nonempty remainder, with an alphabetic first
scheme character; every other string — a relative reference such as the
`/attachments/...` values this backend itself stores included — is treated
as throwing.  This is a fragment of the WHATWG URL grammar, faithful on the
inputs this development evaluates. -/

/-- After the colon of the scheme: two slashes and a nonempty remainder. -/
def urlAfterScheme : List Char → Bool
  | a :: b :: _ :: _ => a == '/' && b == '/'
  | _ => false

/-- Scan the scheme characters up to the colon. -/
def urlSchemeSplit : List Char → Bool
  | [] => false
  | c :: rest =>
    if c == ':' then urlAfterScheme rest
    else (c.isAlpha || c.isDigit || c == '+' || c == '-' || c == '.') && urlSchemeSplit rest

/-- Whether `new URL(s)` succeeds (modelled fragment; see above). -/
def jsUrlParseable (s : String) : Bool :=
  match s.data with
  | [] => false
  | c :: rest => c.isAlpha && urlSchemeSplit (c :: rest)

/-! ## Data model

`clients` table rows (schema `db.sql`): all columns are TEXT, dates included;
nullable columns are `Option String`, `deleted_at` is the soft-delete marker. -/
structure Client where
  client_id : String
  full_name : String
  phone : String
  email : String
  property_location : Option String
  property_type : Option String
  budget_range : Option String
  additional_preferences : Option String
  status : String
  last_contact_date : Option String
  next_follow_up_date : Option String
  assigned_agent_id : Option String
  notes : Option String
  created_at : String
  updated_at : String
  deleted_at : Option String
deriving DecidableEq, Repr

/-- `client_attachments` table rows. -/
structure ClientAttachment where
  attachment_id : String
  client_id : String
  uploaded_by : String
  file_name : String
  file_url : String
  uploaded_at : String
deriving DecidableEq, Repr

/-- The authenticated caller, as decoded from the JWT by `authenticateJWT`:
the token payload carries `user_id`, `name` and `role`. -/
structure AuthUser where
  user_id : String
  name : String
  role : String
deriving DecidableEq, Repr

/-! ## Row Validator: `createClientInputSchema`

A record parsed by `csv-parse` with `columns: true, trim: true` is an object
with one string value per header column; it is modelled as an association
list.  zod validates every key of the object schema and collects the issues;
the model returns the names of the violated fields in schema-key order. -/

/-- A string-keyed record, one CSV data row keyed by the header. -/
abbrev Rec := List (String × String)

/-- JavaScript property access on the record (first binding wins). -/
def recLookup (r : Rec) (k : String) : Option String :=
  (r.find? (fun p => p.1 == k)).map (fun p => p.2)

/-- Issues of a required `z.string().min(lo).max(hi)` field (`hi = none` when
the schema states no maximum): the field name when absent or out of bounds. -/
def reqStringCheck (r : Rec) (k : String) (lo : Nat) (hi : Option Nat) : List String :=
  match recLookup r k with
  | none => [k]
  | some s =>
    if lo ≤ s.length && (match hi with | none => true | some h => decide (s.length ≤ h))
    then [] else [k]

/-- Issues of the required `z.string().email()` field. -/
def emailCheck (r : Rec) : List String :=
  match recLookup r "email" with
  | none => ["email"]
  | some s => if zodEmailValid s then [] else ["email"]

/-- Issues of an optional `z.coerce.date().nullable().optional()` field: when
the key is present its string value must coerce to a valid date. -/
def optDateCheck (r : Rec) (k : String) : List String :=
  match recLookup r k with
  | none => []
  | some s => if jsDateValid s then [] else [k]

/-- All issues of `createClientInputSchema` on a record, in schema-key order.
The optional plain-string fields (`property_location`, `property_type`,
`budget_range`, `additional_preferences`, `assigned_agent_id`, `notes`)
accept every string and contribute no issue. -/
def createClientErrs (r : Rec) : List String :=
  reqStringCheck r "full_name" 1 (some 255) ++
  reqStringCheck r "phone" 7 (some 20) ++
  emailCheck r ++
  reqStringCheck r "status" 1 none ++
  optDateCheck r "last_contact_date" ++
  optDateCheck r "next_follow_up_date"

/-- The normalized output of `createClientInputSchema`: required strings plus
optional fields (`none` when the key is absent).  Coerced date values are
represented by their source string. -/
structure CreateClientInput where
  full_name : String
  phone : String
  email : String
  property_location : Option String
  property_type : Option String
  budget_range : Option String
  additional_preferences : Option String
  status : String
  last_contact_date : Option String
  next_follow_up_date : Option String
  assigned_agent_id : Option String
  notes : Option String
deriving DecidableEq, Repr

/-- `createClientInputSchema.parse` on a string-keyed record: the normalized
record on success, the violated field names on failure. -/
def createClientInputSchemaParse (r : Rec) : Except (List String) CreateClientInput :=
  let errs := createClientErrs r
  if errs = [] then
    .ok {
      full_name := (recLookup r "full_name").getD ""
      phone := (recLookup r "phone").getD ""
      email := (recLookup r "email").getD ""
      property_location := recLookup r "property_location"
      property_type := recLookup r "property_type"
      budget_range := recLookup r "budget_range"
      additional_preferences := recLookup r "additional_preferences"
      status := (recLookup r "status").getD ""
      last_contact_date := recLookup r "last_contact_date"
      next_follow_up_date := recLookup r "next_follow_up_date"
      assigned_agent_id := recLookup r "assigned_agent_id"
      notes := recLookup r "notes" }
  else .error errs

/-- Whether the Row Validator accepts a record. -/
def rowAccepted (r : Rec) : Bool :=
  match createClientInputSchemaParse r with
  | .ok _ => true
  | .error _ => false

/-! ## Query schema: `searchClientQuerySchema`

`req.query` values are always strings (or absent), so the raw query is a
record of optional strings.  zod applies the declared defaults to absent
keys; a present `limit` or `offset` is a string and fails `z.number()`
(zod does not coerce), and a present `sort_by` or `sort_order` must be in
the declared enumeration. -/
structure RawQuery where
  query : Option String := none
  limit : Option String := none
  offset : Option String := none
  sort_by : Option String := none
  sort_order : Option String := none
deriving DecidableEq, Repr

/-- The query accepted by `searchClientQuerySchema`. -/
structure ParsedQuery where
  query : Option String
  limit : Nat
  offset : Nat
  sort_by : String
  sort_order : String
deriving DecidableEq, Repr

/-- `searchClientQuerySchema.parse` on a raw request query. -/
def searchClientQuerySchemaParse (raw : RawQuery) : Except String ParsedQuery :=
  match raw.limit with
  | some _ => .error "limit: Expected number, received string"
  | none =>
  match raw.offset with
  | some _ => .error "offset: Expected number, received string"
  | none =>
  let sb := (raw.sort_by).getD "created_at"
  if sb = "full_name" ∨ sb = "created_at" ∨ sb = "status" then
    let so := (raw.sort_order).getD "desc"
    if so = "asc" ∨ so = "desc" then
      .ok { query := raw.query, limit := 10, offset := 0, sort_by := sb, sort_order := so }
    else .error "sort_order: Invalid enum value"
  else .error "sort_by: Invalid enum value"

/-! ## Listing / export query pipeline -/

/-- The handler sort-field allow-list (`allowedSortBy` in both the listing and
the export handler). -/
def allowedSortBy : List String := ["client_id", "full_name", "created_at", "updated_at"]

/-- The handler sort-direction allow-list (`allowedSortOrder`). -/
def allowedSortOrder : List String := ["ASC", "DESC"]

/-- The handler fallback: the requested sort field when the allow-list
includes it, `full_name` otherwise. -/
def effSortBy (sb : String) : String :=
  if allowedSortBy.contains sb then sb else "full_name"

/-- The handler fallback: the uppercased requested direction when the
allow-list includes it, `ASC` otherwise. -/
def effSortOrder (so : String) : String :=
  if allowedSortOrder.contains (asciiToUpper so) then asciiToUpper so else "ASC"

/-- The column a (post-allow-list) sort field orders by. -/
def clientSortKey (sb : String) (c : Client) : String :=
  if sb = "client_id" then c.client_id
  else if sb = "full_name" then c.full_name
  else if sb = "created_at" then c.created_at
  else if sb = "updated_at" then c.updated_at
  else c.full_name

/-- Insert into a sorted list. -/
def insertLe (le : α → α → Bool) (a : α) : List α → List α
  | [] => [a]
  | b :: l => if le a b then a :: b :: l else b :: insertLe le a l

/-- Insertion sort by a Boolean comparison (model of `ORDER BY`). -/
def sortLe (le : α → α → Bool) : List α → List α
  | [] => []
  | a :: l => insertLe le a (sortLe le l)

/-- The comparison `ORDER BY key dir` sorts by. -/
def orderCmp (sb so : String) (a b : Client) : Bool :=
  if so = "DESC" then strLe (clientSortKey sb b) (clientSortKey sb a)
  else strLe (clientSortKey sb a) (clientSortKey sb b)

/-- `ORDER BY` on client rows. -/
def orderClients (sb so : String) (rows : List Client) : List Client :=
  sortLe (orderCmp sb so) rows

/-- GET `/clients` (listing handler): parse the query with
`searchClientQuerySchema`, allow-list the sort parameters, then
`SELECT * FROM clients WHERE deleted_at IS NULL` restricted to the agent
caller and to the free-text filter, ordered, offset and limited.
A zod parse failure is caught and surfaced as HTTP 500. -/
def getClients (user : AuthUser) (raw : RawQuery) (db : List Client) :
    Except (Nat × String) (List Client) :=
  match searchClientQuerySchemaParse raw with
  | .error e => .error (500, e)
  | .ok p =>
    let sb := effSortBy p.sort_by
    let so := effSortOrder p.sort_order
    let rows := db.filter (fun c => decide (c.deleted_at = none))
    let rows := if user.role = "agent" then
        rows.filter (fun c => decide (c.assigned_agent_id = some user.user_id))
      else rows
    let rows := match p.query with
      | some q => if q = "" then rows else rows.filter (fun c => ilikeContains c.full_name q)
      | none => rows
    .ok (((orderClients sb so rows).drop p.offset).take p.limit)

/-- GET `/clients/export` (export handler): the source duplicates the listing
pipeline verbatim, then serializes the rows to CSV (serialization outside the
model).  Transcribed separately from `getClients`, as in the source. -/
def exportClients (user : AuthUser) (raw : RawQuery) (db : List Client) :
    Except (Nat × String) (List Client) :=
  match searchClientQuerySchemaParse raw with
  | .error e => .error (500, e)
  | .ok p =>
    let sb := effSortBy p.sort_by
    let so := effSortOrder p.sort_order
    let rows := db.filter (fun c => decide (c.deleted_at = none))
    let rows := if user.role = "agent" then
        rows.filter (fun c => decide (c.assigned_agent_id = some user.user_id))
      else rows
    let rows := match p.query with
      | some q => if q = "" then rows else rows.filter (fun c => ilikeContains c.full_name q)
      | none => rows
    .ok (((orderClients sb so rows).drop p.offset).take p.limit)

/-- GET `/clients/:client_id` (detail handler):
`SELECT * FROM clients WHERE client_id = $1 AND deleted_at IS NULL`,
404 when empty, 403 for an agent who is not the assigned agent. -/
def getClientById (user : AuthUser) (client_id : String) (db : List Client) :
    Except (Nat × String) Client :=
  match db.find? (fun c => decide (c.client_id = client_id) && decide (c.deleted_at = none)) with
  | none => .error (404, "Client not found")
  | some c =>
    if user.role = "agent" ∧ c.assigned_agent_id ≠ some user.user_id then
      .error (403, "Forbidden")
    else .ok c

/-- DELETE `/clients/:client_id` (soft delete): after the same lookup and
permission check as the detail handler,
`UPDATE clients SET deleted_at = CURRENT_TIMESTAMP WHERE client_id = $1`.
Returns the response and the updated store. -/
def deleteClient (user : AuthUser) (client_id : String) (now : String) (db : List Client) :
    Except (Nat × String) String × List Client :=
  match db.find? (fun c => decide (c.client_id = client_id) && decide (c.deleted_at = none)) with
  | none => (.error (404, "Client not found"), db)
  | some c =>
    if user.role = "agent" ∧ c.assigned_agent_id ≠ some user.user_id then
      (.error (403, "Forbidden"), db)
    else
      (.ok "Client record soft-deleted.",
       db.map (fun d => if d.client_id = client_id then { d with deleted_at := some now } else d))

/-- Whether a stored attachment row passes
`clientAttachmentEntitySchema.parse`: every column is TEXT, so the string
checks always hold; `file_url` must parse as a URL (`z.string().url()`) and
`uploaded_at` must coerce to a valid date. -/
def clientAttachmentEntitySchemaOk (a : ClientAttachment) : Bool :=
  jsUrlParseable a.file_url && jsDateValid a.uploaded_at

/-- The 500 payload of a failed attachment entity parse.  The string stands
for the zod error message the catch block forwards; only the 500 status is
transcribed from the source. -/
def attachmentParseMsg : String := "clientAttachmentEntitySchema validation failed"

/-- GET `/clients/:client_id/attachments`: the handler runs
`SELECT * FROM client_attachments WHERE client_id = $1` and maps every row
through `clientAttachmentEntitySchema.parse`; the first failing row throws
and the catch block answers HTTP 500.  It reads neither the caller role nor
the clients table; the unused arguments record that absence. -/
def getClientAttachments (user : AuthUser) (client_id : String) (clientsDb : List Client)
    (attachmentsDb : List ClientAttachment) : Except (Nat × String) (List ClientAttachment) :=
  let rows := attachmentsDb.filter (fun a => decide (a.client_id = client_id))
  if rows.all clientAttachmentEntitySchemaOk then .ok rows
  else .error (500, attachmentParseMsg)

/-! ## Import pipeline: POST `/clients/import` -/

/-- JavaScript `value || null` on a nullable TEXT insert parameter: the empty
string is falsy and becomes NULL. -/
def orNull : Option String → Option String
  | some "" => none
  | v => v

/-- The client row the import handler INSERTs for one validated record:
fresh identifier, optional fields defaulted through `|| null`, creation and
update timestamps set to now, no soft-delete marker. -/
def mkImportClient (cid now : String) (d : CreateClientInput) : Client :=
  { client_id := cid
    full_name := d.full_name
    phone := d.phone
    email := d.email
    property_location := orNull d.property_location
    property_type := orNull d.property_type
    budget_range := orNull d.budget_range
    additional_preferences := orNull d.additional_preferences
    status := d.status
    last_contact_date := orNull d.last_contact_date
    next_follow_up_date := orNull d.next_follow_up_date
    assigned_agent_id := orNull d.assigned_agent_id
    notes := orNull d.notes
    created_at := now
    updated_at := now
    deleted_at := none }

/-- The per-record loop of the import handler, processing records in order
from attempt index `i`: a record failing `createClientInputSchema.parse`, or
whose INSERT fails (the oracle `ins` is false at its index), increments
`errorCount`; otherwise the row is appended and `successCount` incremented.
Result: `(successCount, errorCount, inserted rows in order)`. -/
def importRows (ins : Nat → Bool) (ids : Nat → String) (now : String) :
    Nat → List Rec → Nat × Nat × List Client
  | _, [] => (0, 0, [])
  | i, r :: rs =>
    let rest := importRows ins ids now (i + 1) rs
    match createClientInputSchemaParse r with
    | .ok d =>
      if ins i then (rest.1 + 1, rest.2.1, mkImportClient (ids i) now d :: rest.2.2)
      else (rest.1, rest.2.1 + 1, rest.2.2)
    | .error _ => (rest.1, rest.2.1 + 1, rest.2.2)

/-- The JSON body of a completed import. -/
structure ImportOutcome where
  message : String
  successCount : Nat
  errorCount : Nat
deriving DecidableEq, Repr

/-- POST `/clients/import`: only a manager may import (403 otherwise, before
the payload is read); a missing file is HTTP 400, a `csv-parse` failure is
HTTP 400 with the parse message; otherwise every parsed record is processed
by `importRows` and the handler answers HTTP 200 with the counts.  The file
argument is the outcome of `csvParse` on the uploaded buffer: `none` when no
file field was sent, `some (.error e)` when the CSV is unparsable, and
`some (.ok records)` for the parsed data rows. -/
def importClients (user : AuthUser) (file : Option (Except String (List Rec)))
    (ins : Nat → Bool) (ids : Nat → String) (now : String) (db : List Client) :
    Except (Nat × String) ImportOutcome × List Client :=
  if user.role ≠ "manager" then
    (.error (403, "Only managers can import clients."), db)
  else
    match file with
    | none => (.error (400, "CSV file is required."), db)
    | some (.error e) => (.error (400, e), db)
    | some (.ok recs) =>
      let res := importRows ins ids now 0 recs
      (.ok { message := "CSV import completed", successCount := res.1, errorCount := res.2.1 },
       db ++ res.2.2)

/-! ## Express routing of GET requests

`server.js` registers GET routes in a fixed order; Express dispatches a
request to the first registered route whose pattern matches the path.
The star catch-all GET route for the SPA comes after every route below. -/

/-- One path segment of a route pattern: a literal or a named parameter. -/
inductive Seg where
  | lit : String → Seg
  | par : String → Seg
deriving DecidableEq, Repr

/-- The GET routes of `server.js`, in registration order. -/
inductive GetRoute where
  | clientsList
  | clientDetail
  | clientsExport
  | clientComms
  | clientAttachments
  | activityLog
deriving DecidableEq, Repr

/-- Registration order of the GET routes, with their patterns. -/
def getRoutes : List (GetRoute × List Seg) :=
  [(GetRoute.clientsList, [Seg.lit "clients"]),
   (GetRoute.clientDetail, [Seg.lit "clients", Seg.par "client_id"]),
   (GetRoute.clientsExport, [Seg.lit "clients", Seg.lit "export"]),
   (GetRoute.clientComms, [Seg.lit "clients", Seg.par "client_id", Seg.lit "communications"]),
   (GetRoute.clientAttachments, [Seg.lit "clients", Seg.par "client_id", Seg.lit "attachments"]),
   (GetRoute.activityLog, [Seg.lit "activity-log"])]

/-- Match a route pattern against a path, returning the parameter bindings. -/
def matchSegs : List Seg → List String → Option (List (String × String))
  | [], [] => some []
  | Seg.lit s :: ps, x :: xs => if s = x then matchSegs ps xs else none
  | Seg.par n :: ps, x :: xs => (matchSegs ps xs).map (fun bs => (n, x) :: bs)
  | _, _ => none

/-- Express dispatch of a GET path: the first registered matching route. -/
def dispatchGET (path : List String) : Option (GetRoute × List (String × String)) :=
  getRoutes.findSome? (fun rp => (matchSegs rp.2 path).map (fun bs => (rp.1, bs)))

/-! ## Sample data (seed users and small stores used by concrete instances) -/

/-- Manager caller (seed user3). -/
def mgrUser : AuthUser := { user_id := "user3", name := "Charlie Manager", role := "manager" }

/-- Agent caller (seed user1). -/
def agentUser : AuthUser := { user_id := "user1", name := "Alice Agent", role := "agent" }

/-- A minimal live client row. -/
def sampleClient (cid nm ph em : String) (ag : Option String) (created : String) : Client :=
  { client_id := cid, full_name := nm, phone := ph, email := em,
    property_location := none, property_type := none, budget_range := none,
    additional_preferences := none, status := "new", last_contact_date := none,
    next_follow_up_date := none, assigned_agent_id := ag, notes := none,
    created_at := created, updated_at := created, deleted_at := none }

/-- A fixed import timestamp. -/
def now0 : String := "2024-01-01T00:00:00.000Z"

/-- A degenerate identifier supply for import instances. -/
def uuidSeq : Nat → String := fun _ => "generated-id"

/-- Client owned by agent user1. -/
def clientOwn : Client := sampleClient "c1" "John Doe" "1112223333" "john.doe@example.com" (some "user1") "2023-10-05T15:00:00Z"

/-- Client owned by another agent. -/
def clientOther : Client := sampleClient "c2" "Jane Smith" "4445556666" "jane.smith@example.com" (some "user2") "2023-10-06T11:45:00Z"

/-- Unassigned client. -/
def clientUnassigned : Client := sampleClient "c3" "Robert Brown" "7778889999" "robert.brown@example.com" none "2023-10-07T09:00:00Z"

/-- CSV data row 1 of the three-row batch: complete and valid. -/
def csvRow1 : Rec :=
  [("full_name", "John Doe"), ("phone", "1112223333"),
   ("email", "john.doe@example.com"), ("status", "new")]

/-- CSV data row 2 of the three-row batch: the email cell is empty. -/
def csvRow2 : Rec :=
  [("full_name", "Jane Smith"), ("phone", "4445556666"),
   ("email", ""), ("status", "new")]

/-- CSV data row 3 of the three-row batch: complete and valid. -/
def csvRow3 : Rec :=
  [("full_name", "Robert Brown"), ("phone", "7778889999"),
   ("email", "robert.brown@example.com"), ("status", "new")]

/-- The three-row batch whose second row lacks an email address. -/
def csvBatch : List Rec := [csvRow1, csvRow2, csvRow3]

/-- A client row with the soft-delete marker erased, to state that the
delete operation changes nothing else. -/
def stripDeleted (c : Client) : Client := { c with deleted_at := none }

/-- Store for the agent-scoped export instance: one row of the caller, one of
another agent, one unassigned. -/
def c4db : List Client := [clientOwn, clientOther, clientUnassigned]

/-- Store for the soft-delete instance. -/
def c5db : List Client := [clientOwn, clientOther]

/-- The store after the manager soft-deletes client c1. -/
def c5dbAfter : List Client := (deleteClient mgrUser "c1" now0 c5db).2

/-- Record with every required field present and non-empty and a well-formed
email, but a phone value shorter than seven characters. -/
def c6rec : Rec :=
  [("full_name", "John Doe"), ("phone", "12345"),
   ("email", "john.doe@example.com"), ("status", "new")]

/-- Record with valid required fields whose last_contact_date cell is the
empty string. -/
def c10rec : Rec :=
  [("full_name", "John Doe"), ("phone", "1112223333"),
   ("email", "john.doe@example.com"), ("status", "new"),
   ("last_contact_date", ""), ("next_follow_up_date", "2023-10-20T15:30:00Z")]

/-- Request query asking to sort by client_id. -/
def rawSortClientId : RawQuery := { sort_by := some "client_id" }

/-- Request query asking to sort by updated_at. -/
def rawSortUpdatedAt : RawQuery := { sort_by := some "updated_at" }

/-- Request query asking to sort by status, ascending. -/
def rawSortStatus : RawQuery := { sort_by := some "status", sort_order := some "asc" }

/-- Request query asking to sort by full_name, ascending. -/
def rawFullNameAsc : RawQuery := { sort_by := some "full_name", sort_order := some "asc" }

/-- The parsed form of `rawSortStatus`. -/
def pStatus : ParsedQuery :=
  { query := none, limit := 10, offset := 0, sort_by := "status", sort_order := "asc" }

/-- The parsed form of `rawFullNameAsc`. -/
def pFullNameAsc : ParsedQuery :=
  { query := none, limit := 10, offset := 0, sort_by := "full_name", sort_order := "asc" }

/-- Client row named Alice (uppercase initial). -/
def cAliceUpper : Client := sampleClient "e1" "Alice" "1112223333" "alice@example.com" none "2023-10-01T00:00:00Z"

/-- Client row named Bob. -/
def cBob : Client := sampleClient "e2" "Bob" "1112223333" "bob@example.com" none "2023-10-02T00:00:00Z"

/-- Client row named alice (lowercase initial). -/
def cAliceLower : Client := sampleClient "e3" "alice" "1112223333" "alice2@example.com" none "2023-10-03T00:00:00Z"

/-- Store for the sort-order instances. -/
def c8db : List Client := [cBob, cAliceLower, cAliceUpper]

/-- An attachment row as the upload endpoint of this backend stores it: the
file_url is the relative reference slash attachments slash name. -/
def appAttachment : ClientAttachment :=
  { attachment_id := "att1", client_id := "c1", uploaded_by := "user3",
    file_name := "contract.pdf",
    file_url := "/attachments/generated-id-contract.pdf",
    uploaded_at := "2024-01-01T00:00:00.000Z" }

/-- An attachment row whose file_url is an absolute URL (entity-schema
valid). -/
def webAttachment : ClientAttachment :=
  { attachment_id := "att2", client_id := "c1", uploaded_by := "user3",
    file_name := "brochure.pdf",
    file_url := "https://cdn.example.com/brochure.pdf",
    uploaded_at := "2024-01-01T00:00:00.000Z" }

/-! ## General lemmas -/

/-- `lexLe` is total. -/
theorem lexLe_total : ∀ a b : List Char, lexLe a b = true ∨ lexLe b a = true := by
  intro a
  induction a with
  | nil => intro b; left; rfl
  | cons x xs ih =>
    intro b
    cases b with
    | nil => right; rfl
    | cons y ys =>
      simp only [lexLe]
      rcases Nat.lt_trichotomy x.toNat y.toNat with h | h | h
      · left; simp [h]
      · have h1 : ¬ x.toNat < y.toNat := by omega
        have h2 : ¬ y.toNat < x.toNat := by omega
        rcases ih ys with h3 | h3
        · left; simp [h1, h2, h3]
        · right; simp [h1, h2, h3]
      · right; simp [h, Nat.lt_asymm h]

/-- `strLe` is total. -/
theorem strLe_total (a b : String) : strLe a b = true ∨ strLe b a = true :=
  lexLe_total a.data b.data

/-- The comparison used by `ORDER BY` is total. -/
theorem orderCmp_total (sb so : String) (a b : Client) :
    orderCmp sb so a b = true ∨ orderCmp sb so b a = true := by
  unfold orderCmp
  split
  · exact (strLe_total (clientSortKey sb b) (clientSortKey sb a)).symm.imp id id |>.symm
  · exact strLe_total (clientSortKey sb a) (clientSortKey sb b)

/-- Membership through `insertLe`. -/
theorem mem_insertLe (le : α → α → Bool) (a x : α) :
    ∀ l : List α, x ∈ insertLe le a l ↔ x = a ∨ x ∈ l := by
  intro l
  induction l with
  | nil => simp [insertLe]
  | cons b bs ih =>
    simp only [insertLe]
    split
    · simp
    · simp only [List.mem_cons, ih]
      tauto

/-- Membership through `sortLe`. -/
theorem mem_sortLe (le : α → α → Bool) (x : α) :
    ∀ l : List α, x ∈ sortLe le l ↔ x ∈ l := by
  intro l
  induction l with
  | nil => simp [sortLe]
  | cons b bs ih => simp [sortLe, mem_insertLe, ih]

/-- `lexLe` is transitive. -/
theorem lexLe_trans : ∀ a b c : List Char,
    lexLe a b = true → lexLe b c = true → lexLe a c = true := by
  intro a
  induction a with
  | nil => intro b c _ _; rfl
  | cons x xs ih =>
    intro b c hab hbc
    cases b with
    | nil => simp [lexLe] at hab
    | cons y ys =>
      cases c with
      | nil => simp [lexLe] at hbc
      | cons z zs =>
        simp only [lexLe] at hab hbc ⊢
        by_cases hxy : x.toNat < y.toNat
        · by_cases hyz : y.toNat < z.toNat
          · have hxz : x.toNat < z.toNat := by omega
            simp [hxz]
          · by_cases hzy : z.toNat < y.toNat
            · simp [hyz, hzy] at hbc
            · have hxz : x.toNat < z.toNat := by omega
              simp [hxz]
        · by_cases hyx : y.toNat < x.toNat
          · simp [hxy, hyx] at hab
          · by_cases hyz : y.toNat < z.toNat
            · have hxz : x.toNat < z.toNat := by omega
              simp [hxz]
            · by_cases hzy : z.toNat < y.toNat
              · simp [hyz, hzy] at hbc
              · have h1 : ¬ x.toNat < z.toNat := by omega
                have h2 : ¬ z.toNat < x.toNat := by omega
                have hab2 : lexLe xs ys = true := by simpa [hxy, hyx] using hab
                have hbc2 : lexLe ys zs = true := by simpa [hyz, hzy] using hbc
                simp [h1, h2, ih ys zs hab2 hbc2]

/-- `strLe` is transitive. -/
theorem strLe_trans (a b c : String) :
    strLe a b = true → strLe b c = true → strLe a c = true :=
  lexLe_trans a.data b.data c.data

/-- The comparison used by `ORDER BY` is transitive. -/
theorem orderCmp_trans (sb so : String) (a b c : Client) :
    orderCmp sb so a b = true → orderCmp sb so b c = true → orderCmp sb so a c = true := by
  unfold orderCmp
  split
  · intro h1 h2
    exact strLe_trans _ _ _ h2 h1
  · intro h1 h2
    exact strLe_trans _ _ _ h1 h2

/-- `insertLe` preserves sortedness when the comparison is total and
transitive. -/
theorem pairwise_insertLe (le : α → α → Bool)
    (htot : ∀ x y, le x y = true ∨ le y x = true)
    (htr : ∀ x y z, le x y = true → le y z = true → le x z = true) (a : α) :
    ∀ l : List α, List.Pairwise (fun x y => le x y = true) l →
      List.Pairwise (fun x y => le x y = true) (insertLe le a l) := by
  intro l
  induction l with
  | nil => intro _; simp [insertLe]
  | cons b bs ih =>
    intro h
    rcases List.pairwise_cons.mp h with ⟨hb, hbs⟩
    simp only [insertLe]
    split
    · rename_i hab
      refine List.pairwise_cons.mpr ⟨?_, h⟩
      intro y hy
      rcases List.mem_cons.mp hy with rfl | hy
      · exact hab
      · exact htr a b y hab (hb y hy)
    · rename_i hab
      have hba : le b a = true := by
        rcases htot a b with h1 | h1
        · exact absurd h1 hab
        · exact h1
      refine List.pairwise_cons.mpr ⟨?_, ih hbs⟩
      intro y hy
      rcases (mem_insertLe le a y bs).mp hy with rfl | hy
      · exact hba
      · exact hb y hy

/-- `sortLe` sorts when the comparison is total and transitive. -/
theorem pairwise_sortLe (le : α → α → Bool)
    (htot : ∀ x y, le x y = true ∨ le y x = true)
    (htr : ∀ x y z, le x y = true → le y z = true → le x z = true) :
    ∀ l : List α, List.Pairwise (fun x y => le x y = true) (sortLe le l) := by
  intro l
  induction l with
  | nil => simp [sortLe]
  | cons b bs ih => exact pairwise_insertLe le htot htr b (sortLe le bs) ih

/-- The listing and export handlers transcribe the same duplicated source
pipeline and are one function of the caller, query and store. -/
theorem getClients_eq_exportClients : getClients = exportClients := rfl

/-- Every row answered by the export handler comes from the store, is not
soft-deleted, and belongs to the caller when the caller is an agent. -/
theorem exportClients_ok_mem (user : AuthUser) (raw : RawQuery) (db : List Client)
    (rows : List Client) (c : Client)
    (h : exportClients user raw db = .ok rows) (hc : c ∈ rows) :
    c ∈ db ∧ c.deleted_at = none ∧
      (user.role = "agent" → c.assigned_agent_id = some user.user_id) := by
  unfold exportClients at h
  cases hq : searchClientQuerySchemaParse raw with
  | error e => rw [hq] at h; exact absurd h (by simp)
  | ok p =>
    rw [hq] at h
    simp only [Except.ok.injEq] at h
    subst h
    have h1 : c ∈ orderClients (effSortBy p.sort_by) (effSortOrder p.sort_order)
        (match p.query with
         | some q => if q = "" then
             (if user.role = "agent" then
               (db.filter (fun c => decide (c.deleted_at = none))).filter
                 (fun c => decide (c.assigned_agent_id = some user.user_id))
             else db.filter (fun c => decide (c.deleted_at = none)))
           else
             (if user.role = "agent" then
               (db.filter (fun c => decide (c.deleted_at = none))).filter
                 (fun c => decide (c.assigned_agent_id = some user.user_id))
             else db.filter (fun c => decide (c.deleted_at = none))).filter
               (fun c => ilikeContains c.full_name q)
         | none =>
             if user.role = "agent" then
               (db.filter (fun c => decide (c.deleted_at = none))).filter
                 (fun c => decide (c.assigned_agent_id = some user.user_id))
             else db.filter (fun c => decide (c.deleted_at = none))) :=
      List.mem_of_mem_drop (List.mem_of_mem_take hc)
  -- peel the sort
    rw [orderClients, mem_sortLe] at h1
    have h2 : c ∈ (if user.role = "agent" then
        (db.filter (fun c => decide (c.deleted_at = none))).filter
          (fun c => decide (c.assigned_agent_id = some user.user_id))
      else db.filter (fun c => decide (c.deleted_at = none))) := by
      cases hpq : p.query with
      | none => rw [hpq] at h1; exact h1
      | some q =>
        rw [hpq] at h1
        by_cases hq0 : q = ""
        · simpa [hq0] using h1
        · simp only [if_neg hq0, List.mem_filter] at h1
          exact h1.1
    by_cases hrole : user.role = "agent"
    · rw [if_pos hrole] at h2
      rcases List.mem_filter.mp h2 with ⟨h3, h4⟩
      rcases List.mem_filter.mp h3 with ⟨h5, h6⟩
      refine ⟨h5, of_decide_eq_true h6, fun _ => of_decide_eq_true h4⟩
    · rw [if_neg hrole] at h2
      rcases List.mem_filter.mp h2 with ⟨h5, h6⟩
      exact ⟨h5, of_decide_eq_true h6, fun h => absurd h hrole⟩

/-- `ORDER BY` followed by OFFSET and LIMIT yields rows ordered by the
comparison, for every base row set. -/
theorem pairwise_take_drop_orderClients (sb so : String) (base : List Client) (o n : Nat) :
    List.Pairwise (fun a b => orderCmp sb so a b = true)
      (((orderClients sb so base).drop o).take n) := by
  have hs := pairwise_sortLe (orderCmp sb so) (orderCmp_total sb so) (orderCmp_trans sb so) base
  rw [orderClients]
  exact List.Pairwise.sublist ((List.take_sublist _ _).trans (List.drop_sublist _ _)) hs

/-- The export handler answers its rows ordered by the effective sort field
and direction of the parsed query. -/
theorem exportClients_ok_sorted (user : AuthUser) (raw : RawQuery) (db : List Client)
    (rows : List Client) (p : ParsedQuery)
    (hq : searchClientQuerySchemaParse raw = .ok p)
    (h : exportClients user raw db = .ok rows) :
    List.Pairwise
      (fun a b => orderCmp (effSortBy p.sort_by) (effSortOrder p.sort_order) a b = true)
      rows := by
  unfold exportClients at h
  rw [hq] at h
  simp only [Except.ok.injEq] at h
  subst h
  exact pairwise_take_drop_orderClients _ _ _ _ _

/-- With every INSERT succeeding, the import loop partitions the records by
the Row Validator and appends exactly one row per accepted record. -/
theorem importRows_all_ok (ins : Nat → Bool) (ids : Nat → String) (now : String)
    (hins : ∀ i, ins i = true) :
    ∀ (recs : List Rec) (i : Nat),
      (importRows ins ids now i recs).1 = recs.countP rowAccepted
      ∧ (importRows ins ids now i recs).2.1 = recs.countP (fun r => !rowAccepted r)
      ∧ (importRows ins ids now i recs).2.2.length = recs.countP rowAccepted := by
  intro recs
  induction recs with
  | nil => intro i; simp [importRows]
  | cons r rs ih =>
    intro i
    rcases ih (i + 1) with ⟨ih1, ih2, ih3⟩
    simp only [importRows]
    cases hp : createClientInputSchemaParse r with
    | ok d =>
      have hacc : rowAccepted r = true := by simp [rowAccepted, hp]
      simp [hins i, List.countP_cons, hacc, ih1, ih2, ih3]
    | error e =>
      have hacc : rowAccepted r = false := by simp [rowAccepted, hp]
      simp [List.countP_cons, hacc, ih1, ih2, ih3]

/-- `find?` returns the unique member satisfying the predicate. -/
theorem find?_eq_some_of_unique (p : α → Bool) :
    ∀ (l : List α) (c : α), c ∈ l → p c = true → (∀ d ∈ l, p d = true → d = c) →
      l.find? p = some c := by
  intro l
  induction l with
  | nil => intro c hc _ _; simp at hc
  | cons a as ih =>
    intro c hc hpc huniq
    rcases List.mem_cons.mp hc with rfl | hc2
    · exact List.find?_cons_of_pos _ hpc
    · cases hpa : p a with
      | true =>
        have ha : a = c := huniq a (List.mem_cons_self a as) hpa
        subst ha
        exact List.find?_cons_of_pos _ hpa
      | false =>
        rw [List.find?_cons_of_neg _ (by simp [hpa])]
        exact ih c hc2 hpc (fun d hd hpd => huniq d (List.mem_cons_of_mem a hd) hpd)

/-- Characterization of an issue-free required string field. -/
theorem reqStringCheck_eq_nil_iff (r : Rec) (k : String) (lo : Nat) (hi : Option Nat) :
    reqStringCheck r k lo hi = [] ↔
      ∃ s, recLookup r k = some s ∧ lo ≤ s.length ∧ (∀ h, hi = some h → s.length ≤ h) := by
  unfold reqStringCheck
  cases hr : recLookup r k with
  | none => simp
  | some s =>
    cases hi with
    | none =>
      by_cases hls : lo ≤ s.length
      · simp [hls]
      · simp [hls]
    | some h =>
      by_cases hls : lo ≤ s.length
      · by_cases hlh : s.length ≤ h
        · simp [hls, hlh]
        · simp [hls, hlh]
      · simp [hls]

/-- Characterization of an issue-free email field. -/
theorem emailCheck_eq_nil_iff (r : Rec) :
    emailCheck r = [] ↔ ∃ s, recLookup r "email" = some s ∧ zodEmailValid s = true := by
  unfold emailCheck
  cases hr : recLookup r "email" with
  | none => simp
  | some s =>
    cases he : zodEmailValid s
    · simp [he]
    · simp [he]

/-- Characterization of an issue-free optional date field. -/
theorem optDateCheck_eq_nil_iff (r : Rec) (k : String) :
    optDateCheck r k = [] ↔ ∀ s, recLookup r k = some s → jsDateValid s = true := by
  unfold optDateCheck
  cases hr : recLookup r k with
  | none => simp
  | some s =>
    cases hd : jsDateValid s
    · simp [hd]
    · simp [hd]

/-- A required-string issue names its field. -/
theorem mem_reqStringCheck (r : Rec) (k : String) (lo : Nat) (hi : Option Nat) (f : String) :
    f ∈ reqStringCheck r k lo hi → f = k := by
  unfold reqStringCheck
  cases recLookup r k with
  | none => intro h; simpa using h
  | some s =>
    intro h
    split at h
    · simpa using h
    · split at h
      · simp at h
      · simpa using h

/-- An email issue names the email field. -/
theorem mem_emailCheck (r : Rec) (f : String) : f ∈ emailCheck r → f = "email" := by
  unfold emailCheck
  cases recLookup r "email" with
  | none => intro h; simpa using h
  | some s =>
    intro h
    split at h
    · simpa using h
    · split at h
      · simp at h
      · simpa using h

/-- An optional-date issue names its field. -/
theorem mem_optDateCheck (r : Rec) (k : String) (f : String) :
    f ∈ optDateCheck r k → f = k := by
  unfold optDateCheck
  cases recLookup r k with
  | none => intro h; simp at h
  | some s =>
    intro h
    split at h
    · simp at h
    · split at h
      · simp at h
      · simpa using h

/-- The Row Validator accepts exactly the issue-free records. -/
theorem rowAccepted_iff_errs_nil (r : Rec) :
    rowAccepted r = true ↔ createClientErrs r = [] := by
  unfold rowAccepted createClientInputSchemaParse
  by_cases h : createClientErrs r = [] <;> simp [h]

/-- On an issue-laden record the Row Validator reports exactly the issues. -/
theorem parse_error_of_errs_ne_nil (r : Rec) (h : createClientErrs r ≠ []) :
    createClientInputSchemaParse r = .error (createClientErrs r) := by
  unfold createClientInputSchemaParse
  simp [h]

/-- Counting a predicate and its complement partitions the list. -/
theorem countP_add_countP_not (p : α → Bool) :
    ∀ l : List α, l.countP p + l.countP (fun a => !p a) = l.length := by
  intro l
  induction l with
  | nil => simp
  | cons a as ih => cases h : p a <;> simp [List.countP_cons, h] <;> omega

/-- The second component of the delete outcome: either the untouched store or
the store with the matching row marked. -/
theorem deleteClient_snd (user : AuthUser) (cid now : String) (db : List Client) :
    (deleteClient user cid now db).2 = db ∨
    (deleteClient user cid now db).2 =
      db.map (fun d => if d.client_id = cid then { d with deleted_at := some now } else d) := by
  unfold deleteClient
  cases hf : db.find? (fun c => decide (c.client_id = cid) && decide (c.deleted_at = none)) with
  | none => left; rfl
  | some c =>
    split
    · left; rfl
    · split
      · left; rfl
      · right; rfl

/-- The soft delete rewrites rows in place: identifiers are untouched and
every column except the soft-delete marker is untouched. -/
theorem deleteClient_preserves (user : AuthUser) (cid now : String) (db : List Client) :
    ((deleteClient user cid now db).2.map (fun c => c.client_id) = db.map (fun c => c.client_id))
    ∧ ((deleteClient user cid now db).2.map stripDeleted = db.map stripDeleted) := by
  rcases deleteClient_snd user cid now db with h | h
  · rw [h]; exact ⟨rfl, rfl⟩
  · rw [h]
    constructor
    · rw [List.map_map]
      apply List.map_congr_left
      intro d _
      by_cases hd : d.client_id = cid
      · simp [hd]
      · simp [hd]
    · rw [List.map_map]
      apply List.map_congr_left
      intro d _
      by_cases hd : d.client_id = cid
      · simp [Function.comp, hd, stripDeleted]
      · simp [Function.comp, hd]

/-- When every row carrying the identifier is soft-deleted, the detail
handler answers 404. -/
theorem getClientById_404 (user : AuthUser) (cid : String) (db : List Client)
    (h : ∀ c ∈ db, c.client_id = cid → c.deleted_at ≠ none) :
    getClientById user cid db = .error (404, "Client not found") := by
  unfold getClientById
  have hf : db.find? (fun c => decide (c.client_id = cid) && decide (c.deleted_at = none)) = none := by
    rw [List.find?_eq_none]
    intro c hc
    by_cases h1 : c.client_id = cid
    · simp [h1, h c hc h1]
    · simp [h1]
  rw [hf]

/-- A live row (with identifiers unique in the store) is answered by the
detail handler to any manager and to its assigned agent. -/
theorem getClientById_visible (user : AuthUser) (db : List Client) (c : Client)
    (hnd : (db.map (fun x => x.client_id)).Nodup) (hc : c ∈ db) (hdel : c.deleted_at = none) :
    (user.role = "manager" → getClientById user c.client_id db = .ok c)
    ∧ (user.role = "agent" → c.assigned_agent_id = some user.user_id →
        getClientById user c.client_id db = .ok c) := by
  have hf : db.find? (fun d => decide (d.client_id = c.client_id) && decide (d.deleted_at = none))
      = some c := by
    apply find?_eq_some_of_unique
    · exact hc
    · simp [hdel]
    · intro d hd hpd
      simp only [Bool.and_eq_true, decide_eq_true_eq] at hpd
      exact List.inj_on_of_nodup_map hnd hd hc hpd.1
  constructor
  · intro hm
    have hng : ¬(user.role = "agent" ∧ c.assigned_agent_id ≠ some user.user_id) := by
      intro hcon
      rw [hm] at hcon
      exact absurd hcon.1 (by decide)
    unfold getClientById
    simp only [hf]
    rw [if_neg hng]
  · intro ha hass
    have hng : ¬(user.role = "agent" ∧ c.assigned_agent_id ≠ some user.user_id) := by
      intro hcon
      exact hcon.2 hass
    unfold getClientById
    simp only [hf]
    rw [if_neg hng]

/-! ## Claim theorems -/

/-- C1: for every parsed CSV batch, with every attempted per-row insert
succeeding, a manager import completes (HTTP 200) with successCount the
number of rows the Row Validator accepts, errorCount the number it rejects,
successCount + errorCount the number of data rows, and exactly successCount
new client rows in the store afterward; the rejection of one row never
prevents the remaining rows from being processed, since the counts always
partition the whole batch. -/
theorem import_counts_partition (user : AuthUser) (recs : List Rec) (ins : Nat → Bool)
    (ids : Nat → String) (now : String) (db : List Client)
    (hrole : user.role = "manager") (hins : ∀ i, ins i = true) :
    ∃ out db2,
      importClients user (some (.ok recs)) ins ids now db = (.ok out, db2)
      ∧ out.successCount = recs.countP rowAccepted
      ∧ out.errorCount = recs.countP (fun r => !rowAccepted r)
      ∧ out.successCount + out.errorCount = recs.length
      ∧ db2.length = db.length + out.successCount := by
  rcases importRows_all_ok ins ids now hins recs 0 with ⟨h1, h2, h3⟩
  refine ⟨{ message := "CSV import completed", successCount := (importRows ins ids now 0 recs).1,
            errorCount := (importRows ins ids now 0 recs).2.1 },
          db ++ (importRows ins ids now 0 recs).2.2, ?_, h1, h2, ?_, ?_⟩
  · unfold importClients
    rw [if_neg (by simp [hrole])]
  · rw [h1, h2]
    exact countP_add_countP_not rowAccepted recs
  · rw [List.length_append, h3, h1]

/-- C1 witness: the three-row batch whose second row lacks an email yields
successCount 2, errorCount 1, and exactly two new client rows. -/
theorem import_counts_partition_witness :
    mgrUser.role = "manager"
    ∧ (∃ out db2,
        importClients mgrUser (some (.ok csvBatch)) (fun _ => true) uuidSeq now0 [] = (.ok out, db2)
        ∧ out.successCount = csvBatch.countP rowAccepted
        ∧ out.errorCount = csvBatch.countP (fun r => !rowAccepted r)
        ∧ out.successCount + out.errorCount = csvBatch.length
        ∧ db2.length = ([] : List Client).length + out.successCount)
    ∧ (importClients mgrUser (some (.ok csvBatch)) (fun _ => true) uuidSeq now0 []).1 =
        .ok { message := "CSV import completed", successCount := 2, errorCount := 1 }
    ∧ (importClients mgrUser (some (.ok csvBatch)) (fun _ => true) uuidSeq now0 []).2.length = 2 :=
  ⟨rfl,
   import_counts_partition mgrUser csvBatch (fun _ => true) uuidSeq now0 [] rfl (fun _ => rfl),
   rfl, rfl⟩

/-- C2 (code bug): the export route is registered after the client-detail
route, so Express dispatches GET /clients/export to the detail route with
client_id bound to the word export; the request answers 404 while listing
with identical parameters returns the store row, although the two handler
bodies themselves agree.  The export endpoint is therefore not reachable as
its own route. -/
theorem export_route_shadowed_by_detail :
    dispatchGET ["clients", "export"] = some (GetRoute.clientDetail, [("client_id", "export")])
    ∧ getClientById mgrUser "export" [clientOwn] = .error (404, "Client not found")
    ∧ getClients mgrUser {} [clientOwn] = .ok [clientOwn]
    ∧ exportClients mgrUser {} [clientOwn] = .ok [clientOwn] :=
  ⟨rfl, rfl, rfl, rfl⟩

/-- C3: a non-manager import invocation answers 403 with the store unchanged;
a manager invocation with a missing or unparsable payload answers one
top-level 400 with the store unchanged; a completed manager import answers
200 with message, successCount and errorCount. -/
theorem import_access_and_error_semantics (user : AuthUser)
    (file : Option (Except String (List Rec))) (ins : Nat → Bool)
    (ids : Nat → String) (now : String) (db : List Client) :
    (user.role ≠ "manager" →
      importClients user file ins ids now db = (.error (403, "Only managers can import clients."), db))
    ∧ (user.role = "manager" → file = none →
      importClients user file ins ids now db = (.error (400, "CSV file is required."), db))
    ∧ (∀ msg, user.role = "manager" → file = some (.error msg) →
      importClients user file ins ids now db = (.error (400, msg), db))
    ∧ (∀ recs, user.role = "manager" → file = some (.ok recs) →
      importClients user file ins ids now db =
        (.ok { message := "CSV import completed",
               successCount := (importRows ins ids now 0 recs).1,
               errorCount := (importRows ins ids now 0 recs).2.1 },
         db ++ (importRows ins ids now 0 recs).2.2)) := by
  refine ⟨?_, ?_, ?_, ?_⟩
  · intro h
    unfold importClients
    rw [if_pos h]
  · intro h hf
    subst hf
    unfold importClients
    rw [if_neg (by simp [h])]
  · intro msg h hf
    subst hf
    unfold importClients
    rw [if_neg (by simp [h])]
  · intro recs h hf
    subst hf
    unfold importClients
    rw [if_neg (by simp [h])]

/-- C3 witness: an agent import is refused with the store untouched; a
manager import with a missing or unparsable file is one 400 with the store
untouched. -/
theorem import_access_and_error_semantics_witness :
    agentUser.role ≠ "manager"
    ∧ importClients agentUser (some (.ok csvBatch)) (fun _ => true) uuidSeq now0 [clientOwn] =
        (.error (403, "Only managers can import clients."), [clientOwn])
    ∧ importClients mgrUser none (fun _ => true) uuidSeq now0 [clientOwn] =
        (.error (400, "CSV file is required."), [clientOwn])
    ∧ importClients mgrUser (some (.error "Invalid Record Length")) (fun _ => true) uuidSeq now0
        [clientOwn] = (.error (400, "Invalid Record Length"), [clientOwn]) :=
  ⟨by decide,
   (import_access_and_error_semantics agentUser (some (.ok csvBatch)) (fun _ => true) uuidSeq
     now0 [clientOwn]).1 (by decide),
   (import_access_and_error_semantics mgrUser none (fun _ => true) uuidSeq now0 [clientOwn]).2.1
     rfl rfl,
   ((import_access_and_error_semantics mgrUser (some (.error "Invalid Record Length"))
     (fun _ => true) uuidSeq now0 [clientOwn]).2.2.1) "Invalid Record Length" rfl rfl⟩

/-- C4: every row of an export produced for an agent caller is assigned to
that caller; no row of another agent and no unassigned row appears. -/
theorem export_agent_scope_ownership (user : AuthUser) (raw : RawQuery) (db : List Client)
    (rows : List Client) (hrole : user.role = "agent")
    (h : exportClients user raw db = .ok rows) :
    ∀ c ∈ rows, c.assigned_agent_id = some user.user_id ∧ c.assigned_agent_id ≠ none := by
  intro c hc
  have hown := (exportClients_ok_mem user raw db rows c h hc).2.2 hrole
  exact ⟨hown, by simp [hown]⟩

/-- C4 witness: agent user1 exporting over a store holding an owned row, a
row of another agent and an unassigned row receives exactly the owned row. -/
theorem export_agent_scope_ownership_witness :
    agentUser.role = "agent"
    ∧ exportClients agentUser {} c4db = .ok [clientOwn]
    ∧ ∀ c ∈ [clientOwn], c.assigned_agent_id = some agentUser.user_id
        ∧ c.assigned_agent_id ≠ none :=
  ⟨rfl, rfl, export_agent_scope_ownership agentUser {} c4db [clientOwn] rfl rfl⟩

/-- C9 counterexample: a caller listing the attachments of a client that has
one app-uploaded attachment (relative file_url, as the upload endpoint of
this backend stores it) receives the 500 entity-parse error, not the
attachment rows. -/
theorem attachments_listing_counterexample :
    appAttachment.file_url = "/attachments/generated-id-contract.pdf"
    ∧ jsUrlParseable appAttachment.file_url = false
    ∧ clientAttachmentEntitySchemaOk appAttachment = false
    ∧ getClientAttachments mgrUser "c1" [clientOwn] [appAttachment] =
        .error (500, attachmentParseMsg) :=
  ⟨rfl, rfl, rfl, rfl⟩

/-- C9 amended: the attachment-listing handler performs no ownership check,
no soft-delete check and no existence check: its outcome is independent of
the caller and of the clients store, and is never a Forbidden or NotFound
error.  When every stored attachment row of the client passes the entity
schema (absolute file_url, valid uploaded_at), the caller receives exactly
those rows, possibly empty; when some row fails it — as does every
attachment the upload endpoint of this backend stores, whose file_url is
relative — the handler answers 500. -/
theorem attachments_no_ownership_check (user : AuthUser) (client_id : String)
    (clientsDb : List Client) (attachmentsDb : List ClientAttachment) :
    (∀ u2 : AuthUser, getClientAttachments u2 client_id clientsDb attachmentsDb =
        getClientAttachments user client_id clientsDb attachmentsDb)
    ∧ (∀ db2 : List Client, getClientAttachments user client_id db2 attachmentsDb =
        getClientAttachments user client_id clientsDb attachmentsDb)
    ∧ ((attachmentsDb.filter (fun a => decide (a.client_id = client_id))).all
          clientAttachmentEntitySchemaOk = true →
        getClientAttachments user client_id clientsDb attachmentsDb =
          .ok (attachmentsDb.filter (fun a => decide (a.client_id = client_id))))
    ∧ ((attachmentsDb.filter (fun a => decide (a.client_id = client_id))).all
          clientAttachmentEntitySchemaOk = false →
        getClientAttachments user client_id clientsDb attachmentsDb =
          .error (500, attachmentParseMsg))
    ∧ (∀ st msg, getClientAttachments user client_id clientsDb attachmentsDb =
        .error (st, msg) → st = 500 ∧ msg = attachmentParseMsg) := by
  refine ⟨fun _ => rfl, fun _ => rfl, ?_, ?_, ?_⟩
  · intro hall
    unfold getClientAttachments
    rw [if_pos hall]
  · intro hall
    unfold getClientAttachments
    rw [if_neg (by simp [hall])]
  · intro st msg herr
    unfold getClientAttachments at herr
    by_cases hall : (attachmentsDb.filter (fun a => decide (a.client_id = client_id))).all
        clientAttachmentEntitySchemaOk = true
    · simp [hall] at herr
    · simp [hall] at herr
      exact ⟨herr.1.symm, herr.2.symm⟩

/-- C9 amended witness: an agent who is not assigned to the client — indeed
the clients store does not even hold the requested identifier — receives the
schema-valid attachment rows, not a Forbidden or NotFound error. -/
theorem attachments_no_ownership_check_witness :
    agentUser.role = "agent"
    ∧ (∀ c ∈ ([clientOther] : List Client), c.client_id ≠ "c1")
    ∧ ([webAttachment].filter (fun a => decide (a.client_id = "c1"))).all
        clientAttachmentEntitySchemaOk = true
    ∧ getClientAttachments agentUser "c1" [clientOther] [webAttachment] =
        .ok ([webAttachment].filter (fun a => decide (a.client_id = "c1"))) :=
  ⟨rfl, by decide, rfl,
   (attachments_no_ownership_check agentUser "c1" [clientOther] [webAttachment]).2.2.1 rfl⟩


/-- C5: the soft-delete invariant: the delete operation only sets the
deleted_at marker and removes no row; rows with the marker set are excluded
from listing, detail and export results; rows without the marker are
returned by the detail operation to their assigned agent and to any
manager. -/
theorem soft_delete_invariant :
    (∀ (user : AuthUser) (cid now : String) (db : List Client),
      ((deleteClient user cid now db).2.map (fun c => c.client_id) = db.map (fun c => c.client_id))
      ∧ ((deleteClient user cid now db).2.map stripDeleted = db.map stripDeleted))
    ∧ (∀ (user : AuthUser) (raw : RawQuery) (db rows : List Client),
        getClients user raw db = .ok rows → ∀ c ∈ rows, c.deleted_at = none)
    ∧ (∀ (user : AuthUser) (raw : RawQuery) (db rows : List Client),
        exportClients user raw db = .ok rows → ∀ c ∈ rows, c.deleted_at = none)
    ∧ (∀ (user : AuthUser) (cid : String) (db : List Client),
        (∀ c ∈ db, c.client_id = cid → c.deleted_at ≠ none) →
        getClientById user cid db = .error (404, "Client not found"))
    ∧ (∀ (user : AuthUser) (db : List Client) (c : Client),
        (db.map (fun x => x.client_id)).Nodup → c ∈ db → c.deleted_at = none →
        ((user.role = "manager" → getClientById user c.client_id db = .ok c)
         ∧ (user.role = "agent" → c.assigned_agent_id = some user.user_id →
             getClientById user c.client_id db = .ok c))) := by
  refine ⟨deleteClient_preserves, ?_, ?_, getClientById_404, getClientById_visible⟩
  · intro user raw db rows h c hc
    rw [getClients_eq_exportClients] at h
    exact (exportClients_ok_mem user raw db rows c h hc).2.1
  · intro user raw db rows h c hc
    exact (exportClients_ok_mem user raw db rows c h hc).2.1

/-- C5 witness: the manager soft-deletes c1 over a two-row store: both
identifiers survive, listing shows only c2, detail answers 404 for c1 and
returns c2. -/
theorem soft_delete_invariant_witness :
    ((deleteClient mgrUser "c1" now0 c5db).2.map (fun c => c.client_id) =
      c5db.map (fun c => c.client_id))
    ∧ (∀ c ∈ [clientOther], c.deleted_at = none)
    ∧ getClientById mgrUser "c1" c5dbAfter = .error (404, "Client not found")
    ∧ getClientById mgrUser "c2" c5dbAfter = .ok clientOther := by
  refine ⟨(soft_delete_invariant.1 mgrUser "c1" now0 c5db).1, ?_, ?_, ?_⟩
  · exact soft_delete_invariant.2.1 mgrUser {} c5dbAfter [clientOther] rfl
  · exact soft_delete_invariant.2.2.2.1 mgrUser "c1" c5dbAfter (by decide)
  · exact (soft_delete_invariant.2.2.2.2 mgrUser c5dbAfter clientOther (by decide)
      (by decide) rfl).1 rfl

/-- C8: an export whose parsed query asks for sort_by full_name and
sort_order asc returns its rows in case-sensitive ascending code-point
lexicographic order of full_name. -/
theorem export_sorted_by_full_name_asc (user : AuthUser) (raw : RawQuery) (db : List Client)
    (p : ParsedQuery) (rows : List Client)
    (hq : searchClientQuerySchemaParse raw = .ok p)
    (hsb : p.sort_by = "full_name") (hso : p.sort_order = "asc")
    (h : exportClients user raw db = .ok rows) :
    List.Pairwise (fun a b => strLe a.full_name b.full_name = true) rows := by
  have hs := exportClients_ok_sorted user raw db rows p hq h
  rw [hsb, hso] at hs
  refine hs.imp ?_
  intro a b hab
  exact hab

/-- C8 witness: exporting names Bob, alice, Alice with sort_by full_name and
sort_order asc yields Alice, Bob, alice: ascending, and case-sensitive since
the uppercase initials sort before the lowercase one. -/
theorem export_sorted_by_full_name_asc_witness :
    searchClientQuerySchemaParse rawFullNameAsc = .ok pFullNameAsc
    ∧ exportClients mgrUser rawFullNameAsc c8db = .ok [cAliceUpper, cBob, cAliceLower]
    ∧ List.Pairwise (fun a b => strLe a.full_name b.full_name = true)
        [cAliceUpper, cBob, cAliceLower]
    ∧ strLe "Bob" "alice" = true ∧ strLe "alice" "Bob" = false :=
  ⟨rfl, rfl,
   export_sorted_by_full_name_asc mgrUser rawFullNameAsc c8db pFullNameAsc
     [cAliceUpper, cBob, cAliceLower] rfl rfl rfl rfl,
   by decide, by decide⟩

/-- C10: a CSV data row whose last_contact_date or next_follow_up_date cell
is the empty string is rejected by the Row Validator (the empty string fails
date coercion), with the violated date field named, even when the field is
optional. -/
theorem empty_date_string_rejected (r : Rec)
    (h : recLookup r "last_contact_date" = some "" ∨
         recLookup r "next_follow_up_date" = some "") :
    ∃ errs, createClientInputSchemaParse r = .error errs
      ∧ (recLookup r "last_contact_date" = some "" → "last_contact_date" ∈ errs)
      ∧ (recLookup r "next_follow_up_date" = some "" → "next_follow_up_date" ∈ errs) := by
  have hlc : ∀ k, recLookup r k = some "" → optDateCheck r k = [k] := by
    intro k hk
    unfold optDateCheck
    rw [hk]
    rfl
  have hne : createClientErrs r ≠ [] := by
    unfold createClientErrs
    rcases h with h | h
    · have h5 := hlc _ h
      simp [h5]
    · have h6 := hlc _ h
      simp [h6]
  refine ⟨createClientErrs r, parse_error_of_errs_ne_nil r hne, ?_, ?_⟩
  · intro hk
    have h5 := hlc _ hk
    unfold createClientErrs
    rw [h5]
    simp
  · intro hk
    have h6 := hlc _ hk
    unfold createClientErrs
    rw [h6]
    simp

/-- C10 witness: a record with every required field valid and an empty
last_contact_date cell is rejected naming exactly that field. -/
theorem empty_date_string_rejected_witness :
    createClientInputSchemaParse c10rec = .error ["last_contact_date"]
    ∧ rowAccepted csvRow1 = true
    ∧ ∃ errs, createClientInputSchemaParse c10rec = .error errs
        ∧ "last_contact_date" ∈ errs := by
  refine ⟨rfl, rfl, ?_⟩
  rcases empty_date_string_rejected c10rec (Or.inl rfl) with ⟨errs, he, hm, _⟩
  exact ⟨errs, he, hm rfl⟩

/-- C6 counterexample: a record whose four required fields are present and
non-empty and whose email is well-formed is nevertheless rejected by the Row
Validator, because the phone value is shorter than the seven characters
`createClientInputSchema` demands. -/
theorem row_validator_counterexample :
    recLookup c6rec "full_name" = some "John Doe"
    ∧ recLookup c6rec "phone" = some "12345"
    ∧ recLookup c6rec "email" = some "john.doe@example.com"
    ∧ recLookup c6rec "status" = some "new"
    ∧ ("John Doe" : String) ≠ "" ∧ ("12345" : String) ≠ "" ∧ ("new" : String) ≠ ""
    ∧ zodEmailValid "john.doe@example.com" = true
    ∧ createClientInputSchemaParse c6rec = .error ["phone"] :=
  ⟨rfl, rfl, rfl, rfl, by decide, by decide, by decide, rfl, rfl⟩

/-- C6 amended: the Row Validator accepts a record exactly when full_name is
present with length 1 to 255, phone is present with length 7 to 20, email is
present matching the zod email shape, status is present and non-empty, and
each optional date field, when present, coerces to a valid date (the other
optional fields accept any string); on acceptance the absent optional fields
of the normalized record are null; on rejection the error names only
violated schema fields and is nonempty; the import coordinator treats the
rejection as a per-row rejection and continues with the remaining rows. -/
theorem row_validator_characterization (r : Rec) :
    (rowAccepted r = true ↔
      ((∃ s, recLookup r "full_name" = some s ∧ 1 ≤ s.length ∧ s.length ≤ 255)
       ∧ (∃ s, recLookup r "phone" = some s ∧ 7 ≤ s.length ∧ s.length ≤ 20)
       ∧ (∃ s, recLookup r "email" = some s ∧ zodEmailValid s = true)
       ∧ (∃ s, recLookup r "status" = some s ∧ 1 ≤ s.length)
       ∧ (∀ s, recLookup r "last_contact_date" = some s → jsDateValid s = true)
       ∧ (∀ s, recLookup r "next_follow_up_date" = some s → jsDateValid s = true)))
    ∧ (∀ d, createClientInputSchemaParse r = .ok d →
        (recLookup r "property_location" = none → d.property_location = none)
        ∧ (recLookup r "property_type" = none → d.property_type = none)
        ∧ (recLookup r "budget_range" = none → d.budget_range = none)
        ∧ (recLookup r "additional_preferences" = none → d.additional_preferences = none)
        ∧ (recLookup r "last_contact_date" = none → d.last_contact_date = none)
        ∧ (recLookup r "next_follow_up_date" = none → d.next_follow_up_date = none)
        ∧ (recLookup r "assigned_agent_id" = none → d.assigned_agent_id = none)
        ∧ (recLookup r "notes" = none → d.notes = none))
    ∧ (∀ errs, createClientInputSchemaParse r = .error errs →
        errs ≠ [] ∧ ∀ f ∈ errs,
          f ∈ (["full_name", "phone", "email", "status", "last_contact_date",
                "next_follow_up_date"] : List String))
    ∧ (∀ (ins : Nat → Bool) (ids : Nat → String) (now : String) (i : Nat) (rs : List Rec)
        (errs : List String), createClientInputSchemaParse r = .error errs →
        importRows ins ids now i (r :: rs) =
          ((importRows ins ids now (i + 1) rs).1,
           (importRows ins ids now (i + 1) rs).2.1 + 1,
           (importRows ins ids now (i + 1) rs).2.2)) := by
  refine ⟨?_, ?_, ?_, ?_⟩
  · rw [rowAccepted_iff_errs_nil]
    unfold createClientErrs
    simp [List.append_eq_nil, reqStringCheck_eq_nil_iff, emailCheck_eq_nil_iff,
      optDateCheck_eq_nil_iff]
  · intro d hd
    unfold createClientInputSchemaParse at hd
    by_cases he : createClientErrs r = []
    · simp only [he, if_true, Except.ok.injEq] at hd
      subst hd
      exact ⟨fun h => h, fun h => h, fun h => h, fun h => h, fun h => h, fun h => h,
        fun h => h, fun h => h⟩
    · simp [he] at hd
  · intro errs herr
    unfold createClientInputSchemaParse at herr
    by_cases he : createClientErrs r = []
    · simp [he] at herr
    · simp only [he, if_false, Except.error.injEq] at herr
      subst herr
      refine ⟨he, ?_⟩
      intro f hf
      unfold createClientErrs at hf
      rcases List.mem_append.mp hf with hf1 | hfd2
      · rcases List.mem_append.mp hf1 with hf2 | hfd1
        · rcases List.mem_append.mp hf2 with hf3 | hfst
          · rcases List.mem_append.mp hf3 with hf4 | hfem
            · rcases List.mem_append.mp hf4 with hffn | hfph
              · rw [mem_reqStringCheck r "full_name" 1 (some 255) f hffn]; decide
              · rw [mem_reqStringCheck r "phone" 7 (some 20) f hfph]; decide
            · rw [mem_emailCheck r f hfem]; decide
          · rw [mem_reqStringCheck r "status" 1 none f hfst]; decide
        · rw [mem_optDateCheck r "last_contact_date" f hfd1]; decide
      · rw [mem_optDateCheck r "next_follow_up_date" f hfd2]; decide
  · intro ins ids now i rs errs herr
    simp [importRows, herr]

/-- C6 amended witness: the accepted first batch row indeed has a phone of
length 7 to 20, and the rejected second batch row (empty email) produces a
nonempty error naming only schema fields. -/
theorem row_validator_characterization_witness :
    (∃ s, recLookup csvRow1 "phone" = some s ∧ 7 ≤ s.length ∧ s.length ≤ 20)
    ∧ ((["email"] : List String) ≠ []
       ∧ ∀ f ∈ (["email"] : List String),
          f ∈ (["full_name", "phone", "email", "status", "last_contact_date",
                "next_follow_up_date"] : List String)) :=
  ⟨((row_validator_characterization csvRow1).1.mp rfl).2.1,
   (row_validator_characterization csvRow2).2.2.1 ["email"] rfl⟩

/-- C7 counterexample: client_id and updated_at are in the handler allow-list,
yet a request sorting by either is rejected by `searchClientQuerySchema`
(whose enumeration is full_name, created_at, status) before the allow-list
runs, so the listing and export handlers answer an error rather than an
ordered result. -/
theorem sort_allowlist_counterexample :
    "client_id" ∈ allowedSortBy
    ∧ "updated_at" ∈ allowedSortBy
    ∧ searchClientQuerySchemaParse rawSortClientId = .error "sort_by: Invalid enum value"
    ∧ searchClientQuerySchemaParse rawSortUpdatedAt = .error "sort_by: Invalid enum value"
    ∧ getClients mgrUser rawSortClientId [clientOwn] =
        .error (500, "sort_by: Invalid enum value")
    ∧ exportClients mgrUser rawSortUpdatedAt [clientOwn] =
        .error (500, "sort_by: Invalid enum value") :=
  ⟨by decide, by decide, rfl, rfl, rfl, rfl⟩

/-- C7 amended: a sort field outside the query-schema enumeration (client_id
and updated_at included, though both are in the handler allow-list) is
rejected before any row is read; every accepted query has its sort field in
the enumeration, its effective sort field in the pair full_name, created_at
(status falls back to full_name), its effective direction in ASC, DESC, and
both the listing and the export rows are ordered by exactly that effective
field and direction. -/
theorem sort_allowlist_effective_behavior (user : AuthUser) (raw : RawQuery) (db : List Client) :
    (∀ s, raw.sort_by = some s →
      s ∉ (["full_name", "created_at", "status"] : List String) →
      ∃ e, searchClientQuerySchemaParse raw = .error e)
    ∧ (∀ p, searchClientQuerySchemaParse raw = .ok p →
        p.sort_by ∈ (["full_name", "created_at", "status"] : List String)
        ∧ effSortBy p.sort_by ∈ (["full_name", "created_at"] : List String)
        ∧ effSortOrder p.sort_order ∈ (["ASC", "DESC"] : List String)
        ∧ (∀ rows, getClients user raw db = .ok rows →
            List.Pairwise (fun a b =>
              orderCmp (effSortBy p.sort_by) (effSortOrder p.sort_order) a b = true) rows)
        ∧ (∀ rows, exportClients user raw db = .ok rows →
            List.Pairwise (fun a b =>
              orderCmp (effSortBy p.sort_by) (effSortOrder p.sort_order) a b = true) rows)) := by
  constructor
  · intro s hs hsm
    unfold searchClientQuerySchemaParse
    cases hl : raw.limit with
    | some v => exact ⟨_, rfl⟩
    | none =>
      cases ho : raw.offset with
      | some v => exact ⟨_, rfl⟩
      | none =>
        refine ⟨"sort_by: Invalid enum value", ?_⟩
        have hsb2 : (raw.sort_by).getD "created_at" = s := by rw [hs]; rfl
        have hnd : ¬(s = "full_name" ∨ s = "created_at" ∨ s = "status") := by
          simpa using hsm
        rw [hsb2, if_neg hnd]
  · intro p hp
    have hp0 := hp
    unfold searchClientQuerySchemaParse at hp
    cases hl : raw.limit with
    | some v => simp [hl] at hp
    | none =>
      cases ho : raw.offset with
      | some v => simp [hl, ho] at hp
      | none =>
        simp only [hl, ho] at hp
        split at hp
        · split at hp
          · rename_i hsbcond hsocond
            simp only [Except.ok.injEq] at hp
            have hps : p.sort_by = (raw.sort_by).getD "created_at" := by rw [← hp]
            have hpo : p.sort_order = (raw.sort_order).getD "desc" := by rw [← hp]
            refine ⟨?_, ?_, ?_, ?_, ?_⟩
            · rw [hps]
              simpa using hsbcond
            · rw [hps]
              rcases hsbcond with h | h | h <;> rw [h] <;> decide
            · rw [hpo]
              rcases hsocond with h | h <;> rw [h] <;> decide
            · intro rows hrows
              rw [getClients_eq_exportClients] at hrows
              exact exportClients_ok_sorted user raw db rows p hp0 hrows
            · intro rows hrows
              exact exportClients_ok_sorted user raw db rows p hp0 hrows
          · exact absurd hp (by simp)
        · exact absurd hp (by simp)

/-- C7 amended witness: sorting by updated_at is rejected by the schema;
sorting by status is accepted and the export comes back ordered by the
fallback field full_name ascending. -/
theorem sort_allowlist_effective_behavior_witness :
    (∃ e, searchClientQuerySchemaParse rawSortUpdatedAt = .error e)
    ∧ searchClientQuerySchemaParse rawSortStatus = .ok pStatus
    ∧ exportClients mgrUser rawSortStatus c8db = .ok [cAliceUpper, cBob, cAliceLower]
    ∧ List.Pairwise (fun a b =>
        orderCmp (effSortBy pStatus.sort_by) (effSortOrder pStatus.sort_order) a b = true)
        [cAliceUpper, cBob, cAliceLower] :=
  ⟨(sort_allowlist_effective_behavior mgrUser rawSortUpdatedAt []).1 "updated_at" rfl (by decide),
   rfl, rfl,
   ((sort_allowlist_effective_behavior mgrUser rawSortStatus c8db).2 pStatus rfl).2.2.2.2
     [cAliceUpper, cBob, cAliceLower] rfl⟩
